import Mathlib

/-
  Verification development for the aiohttp-rpc repository (JSON-RPC 2.0 layer).

  The definitions below are a shallow embedding of the Python source:
  - aiohttp_rpc/constants.py, errors.py, utils.py
  - aiohttp_rpc/protocol/request.py, protocol/response.py
  - aiohttp_rpc/server/base.py, aiohttp_rpc/middlewares.py
  - aiohttp_rpc/client/base.py, aiohttp_rpc/client/websocket.py

  Python/JSON values are modelled by the type Py.  The sentinel
  constants.NOTHING (used for absent params) is modelled by the dedicated
  type Params below, mirroring that NOTHING is distinct from None.
-/

/-- Scalar Python values corresponding to constants.JSON_PRIMITIVE_TYPES
(str, int, float, bool, NoneType).  A float is kept abstractly as a pair of
integers (mantissa and exponent); no arithmetic is ever performed on it in
the embedded code. -/
inductive PyScalar where
  | none
  | bool (b : Bool)
  | int (n : Int)
  | float (m : Int) (e : Int)
  | str (s : String)
deriving DecidableEq, Repr

/-- Python values as far as the RPC layer inspects them: JSON scalars,
lists, string-keyed dicts, and a constructor for any other Python object
(tuple, set, ...) that is neither a JSON scalar, a list, nor a dict. -/
inductive Py where
  | scalar (s : PyScalar)
  | list (xs : List Py)
  | dict (kvs : List (String × Py))
  | other
deriving Repr

@[match_pattern] def Py.null : Py := .scalar .none

@[match_pattern] def Py.bool (b : Bool) : Py := .scalar (.bool b)

@[match_pattern] def Py.int (n : Int) : Py := .scalar (.int n)

@[match_pattern] def Py.str (s : String) : Py := .scalar (.str s)

mutual

def Py.decEq : (a b : Py) → Decidable (a = b)
  | .scalar x, .scalar y =>
    if h : x = y then isTrue (by rw [h])
    else isFalse (by intro hh; injection hh; contradiction)
  | .list xs, .list ys =>
    match Py.decEqList xs ys with
    | isTrue h => isTrue (by rw [h])
    | isFalse h => isFalse (by intro hh; injection hh; contradiction)
  | .dict xs, .dict ys =>
    match Py.decEqObj xs ys with
    | isTrue h => isTrue (by rw [h])
    | isFalse h => isFalse (by intro hh; injection hh; contradiction)
  | .other, .other => isTrue rfl
  | .scalar _, .list _ => isFalse nofun
  | .scalar _, .dict _ => isFalse nofun
  | .scalar _, .other => isFalse nofun
  | .list _, .scalar _ => isFalse nofun
  | .list _, .dict _ => isFalse nofun
  | .list _, .other => isFalse nofun
  | .dict _, .scalar _ => isFalse nofun
  | .dict _, .list _ => isFalse nofun
  | .dict _, .other => isFalse nofun
  | .other, .scalar _ => isFalse nofun
  | .other, .list _ => isFalse nofun
  | .other, .dict _ => isFalse nofun

def Py.decEqList : (xs ys : List Py) → Decidable (xs = ys)
  | [], [] => isTrue rfl
  | [], _ :: _ => isFalse nofun
  | _ :: _, [] => isFalse nofun
  | x :: xs, y :: ys =>
    match Py.decEq x y, Py.decEqList xs ys with
    | isTrue h1, isTrue h2 => isTrue (by rw [h1, h2])
    | isFalse h1, _ => isFalse (by intro hh; injection hh; contradiction)
    | _, isFalse h2 => isFalse (by intro hh; injection hh; contradiction)

def Py.decEqObj : (xs ys : List (String × Py)) → Decidable (xs = ys)
  | [], [] => isTrue rfl
  | [], _ :: _ => isFalse nofun
  | _ :: _, [] => isFalse nofun
  | (k, v) :: xs, (k2, v2) :: ys =>
    if hk : k = k2 then
      match Py.decEq v v2, Py.decEqObj xs ys with
      | isTrue hv, isTrue ht => isTrue (by rw [hk, hv, ht])
      | isFalse hv, _ =>
        isFalse (by intro hh; injection hh with h1 h2; injection h1; contradiction)
      | _, isFalse ht => isFalse (by intro hh; injection hh; contradiction)
    else
      isFalse (by intro hh; injection hh with h1 h2; injection h1; contradiction)

end

instance : DecidableEq Py := Py.decEq

/-- Lookup in a Python dict (modelled as an insertion-ordered association
list with string keys): dict.get(k). -/
def pyGet (kvs : List (String × Py)) (k : String) : Option Py :=
  match kvs with
  | [] => Option.none
  | (k2, v) :: rest => if k2 = k then some v else pyGet rest k

/-- Generic dict lookup for association lists with an arbitrary key type
(used for the client responses map, keyed by response ids, and the server
method table, keyed by method names). -/
def dget {κ α : Type} [DecidableEq κ] (m : List (κ × α)) (k : κ) : Option α :=
  match m with
  | [] => Option.none
  | (k2, v) :: rest => if k2 = k then some v else dget rest k

/-- Python dict assignment d[k] = v: updates the existing entry in place,
otherwise appends (Python dicts preserve insertion order). -/
def dset {κ α : Type} [DecidableEq κ] (m : List (κ × α)) (k : κ) (v : α) :
    List (κ × α) :=
  match m with
  | [] => [(k, v)]
  | (k2, v2) :: rest => if k2 = k then (k, v) :: rest else (k2, v2) :: dset rest k v

/-- Python dict.pop(k, None): returns the removed value (if any) and the
remaining dict. -/
def dpop {κ α : Type} [DecidableEq κ] (m : List (κ × α)) (k : κ) :
    Option α × List (κ × α) :=
  match m with
  | [] => (Option.none, [])
  | (k2, v) :: rest =>
    if k2 = k then (some v, rest)
    else
      let (r, rest2) := dpop rest k
      (r, (k2, v) :: rest2)

theorem dget_dset_self {κ α : Type} [DecidableEq κ] (m : List (κ × α)) (k : κ) (v : α) :
    dget (dset m k v) k = some v := by
  induction m with
  | nil => simp [dget, dset]
  | cons hd tl ih =>
    obtain ⟨k2, v2⟩ := hd
    by_cases h : k2 = k <;> simp [dget, dset, h, ih]

theorem dget_dset_other {κ α : Type} [DecidableEq κ] (m : List (κ × α)) (k k2 : κ) (v : α)
    (h : k ≠ k2) : dget (dset m k v) k2 = dget m k2 := by
  induction m with
  | nil => simp [dget, dset, h]
  | cons hd tl ih =>
    obtain ⟨k3, v3⟩ := hd
    by_cases h3 : k3 = k
    · subst h3
      simp [dget, dset, h]
    · simp [dget, dset, h3, ih]

/-- constants.VERSION_2_0. -/
def VERSION_2_0 : Py := Py.str "2.0"

/-- isinstance(x, constants.JSON_PRIMITIVE_TYPES). -/
def isJsonPrimitive : Py → Bool
  | .scalar _ => true
  | _ => false

/-- Python truthiness bool(x) for the values the embedded code tests. -/
def pyTruthy : Py → Bool
  | .scalar .none => false
  | .scalar (.bool b) => b
  | .scalar (.int n) => n ≠ 0
  | .scalar (.float m _) => m ≠ 0
  | .scalar (.str s) => s ≠ ""
  | .list xs => !xs.isEmpty
  | .dict kvs => !kvs.isEmpty
  | .other => true

/-- errors.JsonRpcError: an error value carries an integer code, a message
and optional structured data.  The Python classes (ServerError, ParseError,
InvalidRequest, MethodNotFound, InvalidParams, InternalError) only fix the
default code and message, so each is embedded as a constructor function
below. -/
structure JsonRpcError where
  code : Int
  message : String
  data : Option Py := Option.none
deriving DecidableEq, Repr

def serverErrorMk (msg : String := "Server error.") : JsonRpcError :=
  { code := -32000, message := msg }

def parseErrorMk (msg : String := "Invalid JSON was received by the server.") : JsonRpcError :=
  { code := -32700, message := msg }

def invalidRequestMk (msg : String := "The JSON sent is not a valid Request object.") :
    JsonRpcError :=
  { code := -32600, message := msg }

def methodNotFoundMk (msg : String := "The method does not exist / is not available.") :
    JsonRpcError :=
  { code := -32601, message := msg }

def invalidParamsMk (msg : String := "Invalid method parameter(s).") : JsonRpcError :=
  { code := -32602, message := msg }

def internalErrorMk (msg : String := "Internal JSON-RPC error.") : JsonRpcError :=
  { code := -32603, message := msg }

/-- JsonRpcError.with_traceback: attaches the formatted traceback of the
current exception to error.data (the traceback text is abstracted as a
string). -/
def withTraceback (e : JsonRpcError) (tb : String) : JsonRpcError :=
  { e with data := some (Py.dict [("traceback_exception", Py.str tb)]) }

/-- The params field of a request: constants.NOTHING or a Python value
(None is a valid params value, hence the dedicated sentinel). -/
inductive Params where
  | nothing
  | val (v : Py)
deriving DecidableEq, Repr

/-- utils.convert_params_to_args_and_kwargs. -/
def convert_params_to_args_and_kwargs (params : Params) :
    Except JsonRpcError (List Py × List (String × Py)) :=
  match params with
  | .nothing => .ok ([], [])
  | .val v =>
    if isJsonPrimitive v then .ok ([v], [])
    else
      match v with
      | .list xs => .ok (xs, [])
      | .dict kvs => .ok ([], kvs)
      | _ => .error (invalidParamsMk "Params have unsupported data types.")

/-- bool(args and args is not NOTHING): None and the empty sequence both
count as absent. -/
def truthy_args (args : Option (List Py)) : Bool :=
  match args with
  | some (_ :: _) => true
  | _ => false

/-- bool(kwargs and kwargs is not NOTHING). -/
def truthy_kwargs (kwargs : Option (List (String × Py))) : Bool :=
  match kwargs with
  | some (_ :: _) => true
  | _ => false

/-- utils.parse_args_and_kwargs.  args and kwargs are optional sequences /
mappings; Python truthiness makes None and the empty collection both count
as absent. -/
def parse_args_and_kwargs (args : Option (List Py)) (kwargs : Option (List (String × Py))) :
    Except JsonRpcError (Params × List Py × List (String × Py)) :=
  let has_args : Bool := truthy_args args
  let has_kwargs : Bool := truthy_kwargs kwargs
  if !has_args && !has_kwargs then .ok (.nothing, [], [])
  else if !(xor has_args has_kwargs) then .error (invalidParamsMk "Need use args or kwargs.")
  else if has_args then
    let as := args.getD []
    match as with
    | [a] => if isJsonPrimitive a then .ok (.val a, [a], []) else .ok (.val (.list [a]), [a], [])
    | _ => .ok (.val (.list as), as, [])
  else
    let ks := kwargs.getD []
    .ok (.val (.dict ks), [], ks)

/-- utils.validate_jsonrpc: anything other than the literal string 2.0
raises InvalidRequest. -/
def validate_jsonrpc (jsonrpc : Py) : Except JsonRpcError Unit :=
  if jsonrpc = VERSION_2_0 then .ok ()
  else .error (invalidRequestMk "Only version \"2.0\" is supported.")

/-
  protocol/request.py
-/

/-- protocol/request.py JsonRpcRequest.  The id field is a Python value;
id = None (Py.null) marks a notification.  The mutable context and
extra_args mappings are not modelled (no claim depends on them). -/
structure JsonRpcRequest where
  method_name : Py
  id : Py := Py.null
  jsonrpc : Py := VERSION_2_0
  params : Params := Params.nothing
  args : List Py := []
  kwargs : List (String × Py) := []
deriving DecidableEq, Repr

/-- JsonRpcRequest.is_notification: id is None. -/
def JsonRpcRequest.is_notification (r : JsonRpcRequest) : Bool :=
  r.id = Py.null

/-- The dataclass constructor together with JsonRpcRequest.__post_init__:
validates the jsonrpc version, then either derives args/kwargs from params
(set_params), or derives params from args/kwargs (set_args_and_kwargs), and
rejects the case where both params and args/kwargs are supplied. -/
def JsonRpcRequest.make (method_name : Py) (id : Py) (jsonrpc : Py) (params : Params)
    (args : Option (List Py)) (kwargs : Option (List (String × Py))) :
    Except JsonRpcError JsonRpcRequest :=
  match validate_jsonrpc jsonrpc with
  | .error e => .error e
  | .ok _ =>
    match params, args, kwargs with
    | .nothing, _, _ =>
      match parse_args_and_kwargs args kwargs with
      | .error e => .error e
      | .ok (p, a, k) =>
        .ok { method_name := method_name, id := id, jsonrpc := jsonrpc,
              params := p, args := a, kwargs := k }
    | .val v, Option.none, Option.none =>
      match convert_params_to_args_and_kwargs (.val v) with
      | .error e => .error e
      | .ok (a, k) =>
        .ok { method_name := method_name, id := id, jsonrpc := jsonrpc,
              params := .val v, args := a, kwargs := k }
    | _, _, _ => .error (invalidParamsMk "Need use params or args with kwargs.")

/-- JsonRpcRequest._validate_json_request: the wire object must be a dict
containing the keys method and jsonrpc; then the version is validated. -/
def validate_json_request (data : Py) : Except JsonRpcError Unit :=
  match data with
  | .dict kvs =>
    if (pyGet kvs "method").isSome ∧ (pyGet kvs "jsonrpc").isSome then
      validate_jsonrpc ((pyGet kvs "jsonrpc").getD Py.null)
    else .error (invalidRequestMk "The request must contain \"method\" and \"jsonrpc\".")
  | _ => .error (invalidRequestMk "The request must be of the dict type.")

/-- JsonRpcRequest.load. -/
def JsonRpcRequest.load (data : Py) : Except JsonRpcError JsonRpcRequest :=
  match validate_json_request data with
  | .error e => .error e
  | .ok _ =>
    match data with
    | .dict kvs =>
      JsonRpcRequest.make ((pyGet kvs "method").getD Py.null)
        ((pyGet kvs "id").getD Py.null)
        ((pyGet kvs "jsonrpc").getD Py.null)
        (match pyGet kvs "params" with
         | some v => Params.val v
         | Option.none => Params.nothing)
        Option.none Option.none
    | _ => .error (invalidRequestMk "The request must be of the dict type.")

/-- JsonRpcRequest.dump: method and jsonrpc always; id only for
non-notifications; params only when not NOTHING. -/
def JsonRpcRequest.dump (r : JsonRpcRequest) : Py :=
  Py.dict (
    [("method", r.method_name), ("jsonrpc", r.jsonrpc)]
    ++ (if r.id = Py.null then [] else [("id", r.id)])
    ++ (match r.params with
        | .nothing => []
        | .val v => [("params", v)]))

/-
  protocol/response.py
-/

/-- protocol/response.py JsonRpcResponse.  result defaults to None and
error to no error; the context mapping is not modelled. -/
structure JsonRpcResponse where
  id : Py := Py.null
  jsonrpc : Py := VERSION_2_0
  result : Py := Py.null
  error : Option JsonRpcError := Option.none
deriving DecidableEq, Repr

/-- JsonRpcResponse.is_notification: id is None. -/
def JsonRpcResponse.is_notification (r : JsonRpcResponse) : Bool :=
  r.id = Py.null

/-- JsonRpcResponse.dump: id and jsonrpc always; then result, unless an
error is set, in which case the error object (code, message, and data when
not None) takes precedence. -/
def JsonRpcResponse.dump (r : JsonRpcResponse) : Py :=
  match r.error with
  | Option.none => Py.dict [("id", r.id), ("jsonrpc", r.jsonrpc), ("result", r.result)]
  | some e =>
    Py.dict [("id", r.id), ("jsonrpc", r.jsonrpc),
      ("error", Py.dict (
        [("code", Py.int e.code), ("message", Py.str e.message)]
        ++ (match e.data with
            | Option.none => []
            | some d => [("data", d)])))]

/-- JsonRpcResponse._validate_json_response: dict type check, then version
check on data.get(jsonrpc), then result-or-error presence check. -/
def validate_json_response (data : Py) : Except JsonRpcError Unit :=
  match data with
  | .dict kvs =>
    match validate_jsonrpc ((pyGet kvs "jsonrpc").getD Py.null) with
    | .error e => .error e
    | .ok _ =>
      if (pyGet kvs "result").isSome ∨ (pyGet kvs "error").isSome then .ok ()
      else .error (invalidRequestMk "\"result\" or \"error\" not found in data.")
  | _ => .error (invalidRequestMk "The JSON sent is not a valid Request object.")

/-- JsonRpcResponse._add_error: the error member must be a dict with code
and message; the error_map only selects which Python exception class is
instantiated, the resulting (code, message, data) triple is the same for
every class, so the map is not a parameter here. -/
def response_add_error (err : Py) : Except JsonRpcError JsonRpcError :=
  match err with
  | .dict ekvs =>
    if (pyGet ekvs "code").isSome ∧ (pyGet ekvs "message").isSome then
      match (pyGet ekvs "code").getD Py.null, (pyGet ekvs "message").getD Py.null with
      | Py.int c, Py.str m => .ok { code := c, message := m, data := pyGet ekvs "data" }
      | c, m => .ok { code := 0, message := "", data := some (Py.list [c, m]) }
    else .error (invalidRequestMk "The JSON sent is not a valid Request object.")
  | _ => .error (invalidRequestMk "The JSON sent is not a valid Request object.")

/-- JsonRpcResponse.load. -/
def JsonRpcResponse.load (data : Py) : Except JsonRpcError JsonRpcResponse :=
  match validate_json_response data with
  | .error e => .error e
  | .ok _ =>
    match data with
    | .dict kvs =>
      let base : JsonRpcResponse :=
        { id := (pyGet kvs "id").getD Py.null,
          jsonrpc := (pyGet kvs "jsonrpc").getD VERSION_2_0,
          result := (pyGet kvs "result").getD Py.null }
      match pyGet kvs "error" with
      | Option.none => .ok base
      | some err =>
        match response_add_error err with
        | .ok e => .ok { base with error := some e }
        | .error e => .error e
    | _ => .error (invalidRequestMk "The JSON sent is not a valid Request object.")

/-- protocol/response.py JsonRpcBatchResponse.load: a non-sequence payload
is InvalidRequest, otherwise element-wise JsonRpcResponse.load. -/
def JsonRpcBatchResponse.load (data : Py) : Except JsonRpcError (List JsonRpcResponse) :=
  match data with
  | .list items => items.mapM JsonRpcResponse.load
  | _ => .error (invalidRequestMk "A batch request must be of the list type.")

/-
  middlewares.py and server/base.py
-/

/-- A Python exception in flight: either a protocol error
(errors.JsonRpcError) or any other exception, abstracted by its message. -/
inductive PyExc where
  | rpc (e : JsonRpcError)
  | generic (msg : String)
deriving DecidableEq, Repr

/-- middlewares.exception_middleware: a JsonRpcError raised by the inner
handler becomes the error of a response keyed to the request; any other
exception becomes InternalError().with_traceback(). -/
def exception_middleware (handler : JsonRpcRequest → Except PyExc JsonRpcResponse)
    (request : JsonRpcRequest) : JsonRpcResponse :=
  match handler request with
  | .ok response => response
  | .error (.rpc e) =>
    { id := request.id, jsonrpc := request.jsonrpc, error := some e }
  | .error (.generic msg) =>
    { id := request.id, jsonrpc := request.jsonrpc,
      error := some (withTraceback internalErrorMk msg) }

/-- server/base.py BaseJsonRpcServer._process_single_request.  The method
invocation (self.call, ultimately JsonRpcMethod.__call__) is abstracted by
callFn, which may return a value, raise a protocol error (MethodNotFound,
InvalidParams from signature binding, or an error raised by the method
body), or raise any other exception.  Only JsonRpcError is caught here;
other exceptions propagate. -/
def process_single_request (callFn : Py → List Py → List (String × Py) → Except PyExc Py)
    (request : JsonRpcRequest) : Except PyExc JsonRpcResponse :=
  match callFn request.method_name request.args request.kwargs with
  | .ok result =>
    .ok { id := request.id, jsonrpc := request.jsonrpc, result := result }
  | .error (.rpc e) =>
    .ok { id := request.id, jsonrpc := request.jsonrpc, error := some e }
  | .error (.generic msg) => .error (.generic msg)

/-- The middleware chain with middlewares.DEFAULT_MIDDLEWARES:
exception_middleware wrapped around the terminal _process_single_request
(extra_args_middleware only enriches request.extra_args, which is not
modelled).  The chain never raises. -/
def default_chain (callFn : Py → List Py → List (String × Py) → Except PyExc Py)
    (request : JsonRpcRequest) : Except PyExc JsonRpcResponse :=
  .ok (exception_middleware (process_single_request callFn) request)

/-- server/base.py BaseJsonRpcServer._process_single_json_request.  A
non-dict element yields an InvalidRequest error response; a parse failure
yields an error response keyed to whatever id could be salvaged; a
notification response is suppressed (None). -/
def process_single_json_request (chain : JsonRpcRequest → Except PyExc JsonRpcResponse)
    (json_request : Py) : Except PyExc (Option Py) :=
  match json_request with
  | .dict kvs =>
    match JsonRpcRequest.load json_request with
    | .error e =>
      .ok (some (JsonRpcResponse.dump
        { id := (pyGet kvs "id").getD Py.null, error := some e }))
    | .ok request =>
      match chain request with
      | .error exc => .error exc
      | .ok response =>
        if response.is_notification then .ok Option.none
        else .ok (some response.dump)
  | _ =>
    .ok (some (JsonRpcResponse.dump
      { error := some (invalidRequestMk "Data must be a dict.") }))

/-- The dispatcher output: a single wire mapping or a tuple of wire
mappings. -/
inductive ServerOut where
  | single (j : Py)
  | batch (js : List Py)
deriving DecidableEq, Repr

/-- server/base.py BaseJsonRpcServer._raise_exception_if_have: re-raises
the first exception produced by the concurrently processed batch elements,
otherwise yields the values in order. -/
def raise_exception_if_have (xs : List (Except PyExc (Option Py))) :
    Except PyExc (List (Option Py)) :=
  match xs with
  | [] => .ok []
  | .error e :: _ => .error e
  | .ok v :: rest => (raise_exception_if_have rest).map (v :: ·)

/-- server/base.py BaseJsonRpcServer._process_input_data.  An empty batch
yields a single InvalidRequest response object; a non-empty batch is
processed element-wise (asyncio.gather keeps results in input order),
notifications are skipped, and an all-notification batch yields None (no
body).  A dict is processed as a single request; any other payload yields
a single InvalidRequest response.  (In Python a str is also a Sequence;
only list payloads are modelled for the sequence branch, which is the only
shape a JSON array decodes to.) -/
def process_input_data (chain : JsonRpcRequest → Except PyExc JsonRpcResponse)
    (data : Py) : Except PyExc (Option ServerOut) :=
  match data with
  | .list items =>
    if items.isEmpty then
      .ok (some (.single (JsonRpcResponse.dump { error := some invalidRequestMk })))
    else
      match raise_exception_if_have (items.map (process_single_json_request chain)) with
      | .error e => .error e
      | .ok json_responses =>
        let result := json_responses.filterMap id
        .ok (if result.isEmpty then Option.none else some (.batch result))
  | .dict _ =>
    match process_single_json_request chain data with
    | .error e => .error e
    | .ok o => .ok (o.map ServerOut.single)
  | _ =>
    .ok (some (.single (JsonRpcResponse.dump
      { error := some (invalidRequestMk "Data must be a dict or an list.") })))

/-
  A model of concurrent completion for asyncio.gather: each batch element
  is an independent task whose result is stored in the slot of its input
  index; sched lists the indices in completion order.  gather emits the
  slots in input-index order, so the readout is insensitive to sched.
-/

/-- One task completing: stores its result in its own slot. -/
def scatterStep {β : Type} (g : Nat → β) (store : Nat → Option β) (i : Nat) :
    Nat → Option β :=
  fun j => if j = i then some (g i) else store j

/-- All tasks completing in schedule order. -/
def runSched {β : Type} (g : Nat → β) (sched : List Nat) : Nat → Option β :=
  sched.foldl (scatterStep g) (fun _ => Option.none)

/-- The gathered output read out in input-index order. -/
def gather_model {β : Type} (g : Nat → β) (n : Nat) (sched : List Nat) :
    List (Option β) :=
  (List.range n).map (runSched g sched)

/-
  client/base.py
-/

/-- A value of a batch slot before bucketing: the result of a response
whose error is empty, otherwise its error (client/base.py
_collect_batch_result lines computing value). -/
inductive AtomValue where
  | res (v : Py)
  | err (e : JsonRpcError)
deriving DecidableEq, Repr

/-- A value stored in the responses map: a plain value or a
DuplicatedResults collector holding every value seen for that id. -/
inductive MapValue where
  | atom (a : AtomValue)
  | dup (vs : List AtomValue)
deriving DecidableEq, Repr

/-- A slot of the save_order batch result: a plain value, a
DuplicatedResults collector, the UnlinkedResults bucket, or Python None
(the empty-bucket default). -/
inductive BatchValue where
  | atom (a : AtomValue)
  | dup (vs : List AtomValue)
  | unlinkedBucket (vs : List AtomValue)
  | pynone
deriving DecidableEq, Repr

def MapValue.toBatchValue : MapValue → BatchValue
  | .atom a => .atom a
  | .dup vs => .dup vs

/-- value = response.result if response.error is empty else
response.error. -/
def responseValue (r : JsonRpcResponse) : AtomValue :=
  match r.error with
  | Option.none => .res r.result
  | some e => .err e

/-- One iteration of the response loop of _collect_batch_result: a
response whose id is in EMPTY_VALUES goes to the unlinked bucket; a
duplicate id turns the stored entry into (or extends) a DuplicatedResults
collector; otherwise the value is stored under its id. -/
def collectStep (acc : List AtomValue × List (Py × MapValue)) (r : JsonRpcResponse) :
    List AtomValue × List (Py × MapValue) :=
  let (unlinked, rmap) := acc
  let value := responseValue r
  if r.id = Py.null then (unlinked ++ [value], rmap)
  else
    match dget rmap r.id with
    | some (.dup ds) => (unlinked, dset rmap r.id (.dup (ds ++ [value])))
    | some (.atom a) => (unlinked, dset rmap r.id (.dup [a, value]))
    | Option.none => (unlinked, dset rmap r.id (.atom value))

/-- The response loop of _collect_batch_result. -/
def collectResponses (responses : List JsonRpcResponse) :
    List AtomValue × List (Py × MapValue) :=
  responses.foldl collectStep ([], [])

/-- client/base.py BaseJsonRpcClient._collect_batch_result: the ordered
result has one slot per request; notification slots and slots whose id got
no response receive the unlinked bucket (None when it is empty). -/
def collect_batch_result (requests : List JsonRpcRequest)
    (responses : List JsonRpcResponse) : List BatchValue :=
  let unlinked := (collectResponses responses).1
  let rmap := (collectResponses responses).2
  let unlinkedValue : BatchValue :=
    if unlinked.isEmpty then .pynone else .unlinkedBucket unlinked
  requests.map fun request =>
    if request.is_notification then unlinkedValue
    else
      match dget rmap request.id with
      | some mv => mv.toBatchValue
      | Option.none => unlinkedValue

/-- client/base.py BaseJsonRpcClient.direct_batch, with the transport
(send_json) modelled as a function from the sent frame to the decoded
reply, and the frames sent so far as an explicit log.  An empty batch
raises InvalidRequest before anything is appended to the log. -/
def direct_batch (transport : Py → Py) (log : List Py)
    (requests : List JsonRpcRequest) :
    Except JsonRpcError (Option (List JsonRpcResponse)) × List Py :=
  if requests.isEmpty then
    (.error (invalidRequestMk "You can not send an empty batch request."), log)
  else
    let frame := Py.list (requests.map JsonRpcRequest.dump)
    let log2 := log ++ [frame]
    let is_notification := requests.all JsonRpcRequest.is_notification
    if is_notification then (.ok Option.none, log2)
    else
      let json_response := transport frame
      if !pyTruthy json_response then
        (.error (parseErrorMk "Server returned an empty batch response."), log2)
      else
        match JsonRpcBatchResponse.load json_response with
        | .ok responses => (.ok (some responses), log2)
        | .error e => (.error e, log2)

/-
  client/websocket.py
-/

/-- WsJsonRpcClient._get_ids_from_json: the ids under which a pending
waiter is registered for an outgoing payload (ids that are present and not
None). -/
def get_ids_from_json (data : Py) : List Py :=
  if !pyTruthy data then []
  else
    match data with
    | .dict kvs =>
      match pyGet kvs "id" with
      | some v => if v = Py.null then [] else [v]
      | Option.none => []
    | .list items =>
      items.filterMap fun item =>
        match item with
        | .dict kvs =>
          match pyGet kvs "id" with
          | some v => if v = Py.null then none else some v
          | Option.none => none
        | _ => none
    | _ => []

/-- Events observable on a websocket client: registering a pending id
under a waiter (future index), and sending a frame. -/
inductive WsEvent where
  | registered (id : Py) (fidx : Nat)
  | sentFrame (data : Py)
deriving DecidableEq, Repr

/-- The client connection state: the pending table (id to future index),
the store of futures (None while pending, the delivered payload once
resolved), and the ordered event trace. -/
structure WsState where
  pending : List (Py × Nat) := []
  futures : List (Option Py) := []
  trace : List WsEvent := []
deriving DecidableEq, Repr

/-- asyncio.Future.set_result: resolves a pending future; returns true in
the second component when the future was already done and
InvalidStateError is raised (the store is then left unchanged). -/
def future_set_result (futures : List (Option Py)) (i : Nat) (v : Py) :
    List (Option Py) × Bool :=
  match futures.get? i with
  | some Option.none => (futures.set i (some v), false)
  | _ => (futures, true)

/-- WsJsonRpcClient.send_json (the without_response=False path): one fresh
future is created, every id of the payload is registered under it in the
pending table, and only then is the frame sent.  Returns the index of the
future awaited by the caller (None when the payload carries no ids). -/
def ws_send_json (st : WsState) (data : Py) : WsState × Option Nat :=
  let request_ids := get_ids_from_json data
  let fidx := st.futures.length
  let pending := request_ids.foldl (fun p i => dset p i fidx) st.pending
  let trace := st.trace
    ++ request_ids.map (fun i => WsEvent.registered i fidx)
    ++ [WsEvent.sentFrame data]
  (⟨pending, st.futures ++ [Option.none], trace⟩,
   if request_ids.isEmpty then Option.none else some fidx)

/-- WsJsonRpcClient._notify_about_result: pops the id from the pending
table and, if a future was registered, resolves it.  The second component
is true when set_result raised InvalidStateError (already-resolved
future). -/
def notify_about_result (st : WsState) (rid : Py) (json_response : Py) :
    WsState × Bool :=
  match dpop st.pending rid with
  | (Option.none, _) => (st, false)
  | (some fidx, pending) =>
    let (fs, raised) := future_set_result st.futures fidx json_response
    ({ st with pending := pending, futures := fs }, raised)

/-- The loop body of WsJsonRpcClient._notify_about_results: every arriving
id is popped, but only the first popped future is resolved (is_processed
flag); an InvalidStateError from set_result aborts the loop (second
component true). -/
def notify_about_results_go (st : WsState) (is_processed : Bool) (ids : List Py)
    (json_response : Py) : WsState × Bool :=
  match ids with
  | [] => (st, false)
  | rid :: rest =>
    match dpop st.pending rid with
    | (Option.none, _) => notify_about_results_go st is_processed rest json_response
    | (some fidx, pending) =>
      if is_processed then
        notify_about_results_go { st with pending := pending } is_processed rest json_response
      else
        match future_set_result st.futures fidx json_response with
        | (fs, false) =>
          notify_about_results_go { st with pending := pending, futures := fs }
            true rest json_response
        | (_, true) => ({ st with pending := pending }, true)

/-- WsJsonRpcClient._notify_about_results. -/
def notify_about_results (st : WsState) (ids : List Py) (json_response : Py) :
    WsState × Bool :=
  notify_about_results_go st false ids json_response

/-
  server/base.py BaseJsonRpcServer.add_method
-/

/-- A registered method: its registry name and an opaque identity for the
wrapped callable. -/
structure RpcMethod where
  name : String
  tag : Nat
deriving DecidableEq, Repr

/-- server/base.py BaseJsonRpcServer.add_method: a duplicate name without
replace=True raises InvalidParams before the table is touched; otherwise
the method is bound under its name.  The pair returns the (possibly
updated) table and the raised error, if any. -/
def add_method (methods : List (String × RpcMethod)) (m : RpcMethod)
    (replace : Bool) : List (String × RpcMethod) × Option JsonRpcError :=
  if !replace ∧ (dget methods m.name).isSome then
    (methods,
     some (invalidParamsMk ("Method " ++ m.name ++ " has already been added.")))
  else (dset methods m.name m, Option.none)

/-- The in-input-order sequence of per-element dispatcher outputs of a
batch (None for a suppressed notification), assuming no element raises a
non-protocol exception. -/
def batch_outputs (chain : JsonRpcRequest → Except PyExc JsonRpcResponse)
    (items : List Py) : List (Option Py) :=
  items.map fun it =>
    match process_single_json_request chain it with
    | .ok o => o
    | .error _ => Option.none

/-- The per-task result function handed to the gather model: the batch
element of input index i produces the i-th dispatcher output. -/
def proc_at (chain : JsonRpcRequest → Except PyExc JsonRpcResponse)
    (items : List Py) (i : Nat) : Option Py :=
  (batch_outputs chain items).getD i Option.none

/-
  Theorems.
-/

/-- Claim C3: converting params to (args, kwargs) yields ([], empty) for
absent params, ([p], empty) for a scalar/null p, (the elements, empty) for
an array, ([], the object) for an object, and InvalidParams otherwise; in
the reverse direction, both empty yields ABSENT params, exactly one
positional scalar arg with no kwargs yields that scalar, only args yields
the array, only kwargs yields the object, and args and kwargs both
non-empty raises InvalidParams. -/
theorem C3_value_normalizer :
    (convert_params_to_args_and_kwargs Params.nothing = .ok ([], []))
    ∧ (∀ v : Py, isJsonPrimitive v = true →
        convert_params_to_args_and_kwargs (.val v) = .ok ([v], []))
    ∧ (∀ xs : List Py,
        convert_params_to_args_and_kwargs (.val (.list xs)) = .ok (xs, []))
    ∧ (∀ kvs : List (String × Py),
        convert_params_to_args_and_kwargs (.val (.dict kvs)) = .ok ([], kvs))
    ∧ (convert_params_to_args_and_kwargs (.val .other)
        = .error (invalidParamsMk "Params have unsupported data types."))
    ∧ (∀ args kwargs, truthy_args args = false → truthy_kwargs kwargs = false →
        parse_args_and_kwargs args kwargs = .ok (.nothing, [], []))
    ∧ (∀ (p : Py) kwargs, isJsonPrimitive p = true → truthy_kwargs kwargs = false →
        parse_args_and_kwargs (some [p]) kwargs = .ok (.val p, [p], []))
    ∧ (∀ (args : List Py) kwargs, truthy_args (some args) = true →
        truthy_kwargs kwargs = false →
        (∀ p : Py, args = [p] → isJsonPrimitive p = false) →
        parse_args_and_kwargs (some args) kwargs = .ok (.val (.list args), args, []))
    ∧ (∀ args kwargs, truthy_args args = false → truthy_kwargs kwargs = true →
        parse_args_and_kwargs args kwargs
          = .ok (.val (.dict (kwargs.getD [])), [], kwargs.getD []))
    ∧ (∀ args kwargs, truthy_args args = true → truthy_kwargs kwargs = true →
        parse_args_and_kwargs args kwargs
          = .error (invalidParamsMk "Need use args or kwargs.")) := by
  refine ⟨rfl, ?_, ?_, ?_, rfl, ?_, ?_, ?_, ?_, ?_⟩
  · intro v hv
    cases v with
    | scalar s => rfl
    | list xs => simp [isJsonPrimitive] at hv
    | dict kvs => simp [isJsonPrimitive] at hv
    | other => simp [isJsonPrimitive] at hv
  · intro xs
    rfl
  · intro kvs
    rfl
  · intro args kwargs ha hk
    simp [parse_args_and_kwargs, ha, hk]
  · intro p kwargs hp hk
    simp [parse_args_and_kwargs, truthy_args, hk, hp]
  · intro args kwargs ha hk hnp
    cases args with
    | nil => simp [truthy_args] at ha
    | cons a as =>
      cases as with
      | nil =>
        have := hnp a rfl
        simp [parse_args_and_kwargs, truthy_args, hk, this]
      | cons b bs =>
        simp [parse_args_and_kwargs, truthy_args, hk]
  · intro args kwargs ha hk
    cases kwargs with
    | none => simp [truthy_kwargs] at hk
    | some ks =>
      cases ks with
      | nil => simp [truthy_kwargs] at hk
      | cons k0 krest => simp [parse_args_and_kwargs, ha, truthy_kwargs]
  · intro args kwargs ha hk
    simp [parse_args_and_kwargs, ha, hk]

/-- Witness for C3 at concrete inputs: params 5 converts to ([5], empty)
and a single scalar arg 5 parses back to params 5. -/
theorem C3_value_normalizer_witness :
    convert_params_to_args_and_kwargs (.val (Py.int 5)) = .ok ([Py.int 5], [])
    ∧ parse_args_and_kwargs (some [Py.int 5]) Option.none
        = .ok (.val (Py.int 5), [Py.int 5], []) :=
  ⟨C3_value_normalizer.2.1 (Py.int 5) (by decide),
   C3_value_normalizer.2.2.2.2.2.2.1 (Py.int 5) Option.none (by decide) (by decide)⟩

/-- Claim C10: adding a method whose name is already registered with
replace=false raises InvalidParams and leaves the method table completely
unchanged; a successful add changes only the binding for the added name. -/
theorem C10_add_method_atomicity :
    (∀ (methods : List (String × RpcMethod)) (m : RpcMethod),
      (dget methods m.name).isSome →
      add_method methods m false
        = (methods,
           some (invalidParamsMk ("Method " ++ m.name ++ " has already been added."))))
    ∧ (∀ (methods : List (String × RpcMethod)) (m : RpcMethod) (replace : Bool),
      (replace = true ∨ dget methods m.name = Option.none) →
      (add_method methods m replace).2 = Option.none
      ∧ dget (add_method methods m replace).1 m.name = some m
      ∧ ∀ k : String, k ≠ m.name →
          dget (add_method methods m replace).1 k = dget methods k) := by
  constructor
  · intro methods m hm
    simp [add_method, hm]
  · intro methods m replace h
    have hstep : add_method methods m replace = (dset methods m.name m, Option.none) := by
      rcases h with h | h
      · simp [add_method, h]
      · simp [add_method, h]
    refine ⟨?_, ?_, ?_⟩
    · simp [hstep]
    · simp [hstep, dget_dset_self]
    · intro k hk
      simp [hstep, dget_dset_other methods m.name k m (fun hh => hk hh.symm)]

/-- Witness for C10: a duplicate registration of the name f fails and
keeps the one-entry table intact, and a fresh registration of g succeeds. -/
theorem C10_add_method_atomicity_witness :
    (add_method [("f", RpcMethod.mk "f" 0)] (RpcMethod.mk "f" 1) false
      = ([("f", RpcMethod.mk "f" 0)],
         some (invalidParamsMk "Method f has already been added.")))
    ∧ dget (add_method [("f", RpcMethod.mk "f" 0)] (RpcMethod.mk "g" 1) false).1 "g"
        = some (RpcMethod.mk "g" 1) :=
  ⟨C10_add_method_atomicity.1 [("f", RpcMethod.mk "f" 0)] (RpcMethod.mk "f" 1) (by decide),
   (C10_add_method_atomicity.2 [("f", RpcMethod.mk "f" 0)] (RpcMethod.mk "g" 1) false
     (Or.inr (by decide))).2.1⟩

/-- Claim C8: an empty client batch raises InvalidRequest before anything
is sent over the transport (the frame log is unchanged), and an empty
batch array received by the server yields a single InvalidRequest response
object, not an empty array. -/
theorem C8_empty_batch :
    (∀ (transport : Py → Py) (log : List Py),
      direct_batch transport log []
        = (.error (invalidRequestMk "You can not send an empty batch request."), log))
    ∧ (∀ chain, process_input_data chain (Py.list [])
        = .ok (some (.single (JsonRpcResponse.dump { error := some invalidRequestMk })))) := by
  constructor
  · intro transport log
    simp [direct_batch]
  · intro chain
    simp [process_input_data]

/-- Claim C7: at the dispatch boundary (the invoker wrapped by the default
exception middleware), a JsonRpcError raised by a method propagates
unchanged into the error of the response, while any other exception is
converted into an InternalError (code -32603) carrying traceback data, so
the chain always yields a protocol response and never a raw exception. -/
theorem C7_exception_sanitization :
    ∀ (callFn : Py → List Py → List (String × Py) → Except PyExc Py)
      (request : JsonRpcRequest),
    (∀ e : JsonRpcError,
      callFn request.method_name request.args request.kwargs = .error (.rpc e) →
      exception_middleware (process_single_request callFn) request
        = { id := request.id, jsonrpc := request.jsonrpc, error := some e })
    ∧ (∀ msg : String,
      callFn request.method_name request.args request.kwargs = .error (.generic msg) →
      exception_middleware (process_single_request callFn) request
        = { id := request.id, jsonrpc := request.jsonrpc,
            error := some { code := -32603, message := "Internal JSON-RPC error.",
                            data := some (Py.dict [("traceback_exception", Py.str msg)]) } })
    ∧ (∃ response : JsonRpcResponse,
        default_chain callFn request = .ok response) := by
  intro callFn request
  refine ⟨?_, ?_, ?_⟩
  · intro e he
    simp [exception_middleware, process_single_request, he]
  · intro msg hm
    simp [exception_middleware, process_single_request, hm, withTraceback,
      internalErrorMk]
  · exact ⟨exception_middleware (process_single_request callFn) request, rfl⟩

/-- Witness for C7: a method body raising a generic exception is
sanitized to InternalError -32603, and one raising MethodNotFound
propagates unchanged. -/
theorem C7_exception_sanitization_witness :
    exception_middleware
      (process_single_request (fun _ _ _ => .error (.generic "boom")))
      { method_name := Py.str "m", id := Py.int 1 }
      = { id := Py.int 1, jsonrpc := VERSION_2_0,
          error := some { code := -32603, message := "Internal JSON-RPC error.",
                          data := some (Py.dict [("traceback_exception", Py.str "boom")]) } }
    ∧ exception_middleware
        (process_single_request (fun _ _ _ => .error (.rpc methodNotFoundMk)))
        { method_name := Py.str "m", id := Py.int 1 }
        = { id := Py.int 1, jsonrpc := VERSION_2_0, error := some methodNotFoundMk } :=
  ⟨((C7_exception_sanitization (fun _ _ _ => .error (.generic "boom"))
      { method_name := Py.str "m", id := Py.int 1 }).2.1 "boom" rfl),
   ((C7_exception_sanitization (fun _ _ _ => .error (.rpc methodNotFoundMk))
      { method_name := Py.str "m", id := Py.int 1 }).1 methodNotFoundMk rfl)⟩

/-- Counterexample for C6: a request wire object whose jsonrpc is "1.0"
but which lacks the method key fails with the missing-keys InvalidRequest
message, not with the version message, so a validation other than the
version check ran (and failed) first. -/
theorem C6_version_enforcement_counterexample :
    JsonRpcRequest.load (Py.dict [("jsonrpc", Py.str "1.0")])
      = .error (invalidRequestMk "The request must contain \"method\" and \"jsonrpc\".")
    ∧ invalidRequestMk "The request must contain \"method\" and \"jsonrpc\"."
        ≠ invalidRequestMk "Only version \"2.0\" is supported." := by
  exact ⟨rfl, by decide⟩

/-- Claim C6 as amended: any request or response wire object whose jsonrpc
field is not the literal "2.0" fails to parse with InvalidRequest; for
requests the version check runs after the dict-type and required-keys
checks (a dict with both keys and a bad version fails with the version
error; a dict missing a key fails with the keys error regardless of the
version); for responses the version check runs after the dict-type check
but before the result/error-presence check. -/
theorem C6_version_enforcement_amended :
    (∀ kvs : List (String × Py),
      (pyGet kvs "method").isSome → (pyGet kvs "jsonrpc").isSome →
      (pyGet kvs "jsonrpc").getD Py.null ≠ VERSION_2_0 →
      JsonRpcRequest.load (Py.dict kvs)
        = .error (invalidRequestMk "Only version \"2.0\" is supported."))
    ∧ (∀ kvs : List (String × Py),
      ¬((pyGet kvs "method").isSome ∧ (pyGet kvs "jsonrpc").isSome) →
      JsonRpcRequest.load (Py.dict kvs)
        = .error (invalidRequestMk "The request must contain \"method\" and \"jsonrpc\"."))
    ∧ (∀ kvs : List (String × Py),
      (pyGet kvs "jsonrpc").getD Py.null ≠ VERSION_2_0 →
      JsonRpcResponse.load (Py.dict kvs)
        = .error (invalidRequestMk "Only version \"2.0\" is supported."))
    ∧ (∀ kvs : List (String × Py),
      (pyGet kvs "jsonrpc").getD Py.null ≠ VERSION_2_0 →
      ∃ msg, JsonRpcRequest.load (Py.dict kvs) = .error (invalidRequestMk msg)) := by
  refine ⟨?_, ?_, ?_, ?_⟩
  · intro kvs h1 h2 h3
    simp [JsonRpcRequest.load, validate_json_request, validate_jsonrpc, h1, h2, h3]
  · intro kvs h
    simp [JsonRpcRequest.load, validate_json_request, h]
  · intro kvs h
    simp [JsonRpcResponse.load, validate_json_response, validate_jsonrpc, h]
  · intro kvs h
    by_cases hm : ((pyGet kvs "method").isSome ∧ (pyGet kvs "jsonrpc").isSome)
    · exact ⟨"Only version \"2.0\" is supported.",
        by simp [JsonRpcRequest.load, validate_json_request, validate_jsonrpc,
          hm.1, hm.2, h]⟩
    · exact ⟨"The request must contain \"method\" and \"jsonrpc\".",
        by simp [JsonRpcRequest.load, validate_json_request, hm]⟩

/-- Witness for C6 (amended) at concrete inputs: a complete request with
version "1.0" fails with the version message, and a response with version
"1.0" fails with the version message even though it also lacks result and
error. -/
theorem C6_version_enforcement_amended_witness :
    JsonRpcRequest.load
      (Py.dict [("method", Py.str "m"), ("jsonrpc", Py.str "1.0")])
      = .error (invalidRequestMk "Only version \"2.0\" is supported.")
    ∧ JsonRpcResponse.load (Py.dict [("jsonrpc", Py.str "1.0")])
        = .error (invalidRequestMk "Only version \"2.0\" is supported.") :=
  ⟨C6_version_enforcement_amended.1
      [("method", Py.str "m"), ("jsonrpc", Py.str "1.0")]
      (by decide) (by decide) (by decide),
   C6_version_enforcement_amended.2.2.1 [("jsonrpc", Py.str "1.0")] (by decide)⟩

/-- Folding a run of values for one id into its map entry, following the
duplicate-handling of _collect_batch_result. -/
def insertAtoms (cur : Option MapValue) (vs : List AtomValue) : Option MapValue :=
  vs.foldl (fun c v =>
    match c with
    | Option.none => some (.atom v)
    | some (.atom a) => some (.dup [a, v])
    | some (.dup ds) => some (.dup (ds ++ [v]))) cur

/-- The map entry determined by the values arriving for one id: absent for
no value, the plain value for one, a DuplicatedResults collector of all
values for two or more. -/
def mapValueFor : List AtomValue → Option MapValue
  | [] => Option.none
  | [v] => some (.atom v)
  | v :: vs => some (.dup (v :: vs))

theorem insertAtoms_append (cur : Option MapValue) (vs ws : List AtomValue) :
    insertAtoms (insertAtoms cur vs) ws = insertAtoms cur (vs ++ ws) :=
  (List.foldl_append _ _ _ _).symm

theorem insertAtoms_dup (ds : List AtomValue) (vs : List AtomValue) :
    insertAtoms (some (.dup ds)) vs = some (.dup (ds ++ vs)) := by
  induction vs generalizing ds with
  | nil => simp [insertAtoms]
  | cons v vs ih =>
    have step : insertAtoms (some (.dup ds)) (v :: vs)
        = insertAtoms (some (.dup (ds ++ [v]))) vs := rfl
    rw [step, ih]
    simp

theorem insertAtoms_none_eq_mapValueFor (vs : List AtomValue) :
    insertAtoms Option.none vs = mapValueFor vs := by
  match vs with
  | [] => rfl
  | [v] => rfl
  | v :: w :: rest =>
    have step : insertAtoms Option.none (v :: w :: rest)
        = insertAtoms (some (.dup [v, w])) rest := rfl
    rw [step, insertAtoms_dup]
    rfl

theorem collect_map_lookup (rs : List JsonRpcResponse)
    (acc : List AtomValue × List (Py × MapValue)) (id : Py) (hid : id ≠ Py.null) :
    dget (rs.foldl collectStep acc).2 id
      = insertAtoms (dget acc.2 id)
          ((rs.filter (fun r => r.id = id)).map responseValue) := by
  induction rs generalizing acc with
  | nil => simp [insertAtoms]
  | cons r rs ih =>
    rw [List.foldl_cons, ih]
    by_cases hr : r.id = Py.null
    · have hne : ¬(r.id = id) := fun hh => hid (hh ▸ hr)
      simp [collectStep, hr, hne, List.filter_cons, Ne.symm hid]
    · by_cases hri : r.id = id
      · subst hri
        have hstep : dget (collectStep acc r).2 r.id
            = insertAtoms (dget acc.2 r.id) [responseValue r] := by
          simp only [collectStep, hr, if_false]
          cases hcur : dget acc.2 r.id with
          | none => simp [hcur, insertAtoms, dget_dset_self]
          | some mv =>
            cases mv with
            | atom a => simp [hcur, insertAtoms, dget_dset_self]
            | dup ds => simp [hcur, insertAtoms, dget_dset_self]
        rw [hstep, insertAtoms_append]
        simp
      · have hstep : dget (collectStep acc r).2 id = dget acc.2 id := by
          simp only [collectStep, hr, if_false]
          cases hcur : dget acc.2 r.id with
          | none => simpa using dget_dset_other acc.2 r.id id (.atom (responseValue r)) hri
          | some mv =>
            cases mv with
            | atom a => simpa using dget_dset_other acc.2 r.id id _ hri
            | dup ds => simpa using dget_dset_other acc.2 r.id id _ hri
        rw [hstep]
        simp [hri]

theorem collect_unlinked_spec (rs : List JsonRpcResponse)
    (acc : List AtomValue × List (Py × MapValue)) :
    (rs.foldl collectStep acc).1
      = acc.1 ++ (rs.filter (fun r => r.id = Py.null)).map responseValue := by
  induction rs generalizing acc with
  | nil => simp
  | cons r rs ih =>
    rw [List.foldl_cons, ih]
    by_cases hr : r.id = Py.null
    · simp [collectStep, hr]
    · cases hcur : dget acc.2 r.id with
      | none => simp [collectStep, hr, hcur]
      | some mv =>
        cases mv with
        | atom a => simp [collectStep, hr, hcur]
        | dup ds => simp [collectStep, hr, hcur]

/-- Counterexample for C2: a batch response containing one response whose
id (the string "b") was never sent in the batch request (which used the
string id "a") is NOT collected into the unlinked-results bucket; the
bucket stays empty and the result slot falls back to Python None. -/
theorem C2_unlinked_results_counterexample :
    (collectResponses [{ id := Py.str "b", result := Py.int 42 }]).1 = []
    ∧ collect_batch_result
        [{ method_name := Py.str "m", id := Py.str "a" }]
        [{ id := Py.str "b", result := Py.int 42 }]
      = [BatchValue.pynone] := by
  exact ⟨rfl, rfl⟩

/-- Claim C2 as amended: the unlinked-results bucket collects exactly the
responses whose id is empty (None), in arrival order, rather than every
response whose id was never sent (a response with a non-empty unmatched id
is stored in the responses map and silently dropped from the ordered
result); and whenever two or more responses bear the same non-empty id,
the map entry for that id is a DuplicatedResults collector holding all
values for that id in arrival order, so later duplicates never overwrite
the first value. -/
theorem C2_unlinked_duplicated_amended :
    (∀ responses : List JsonRpcResponse,
      (collectResponses responses).1
        = (responses.filter (fun r => r.id = Py.null)).map responseValue)
    ∧ (∀ (responses : List JsonRpcResponse) (id : Py), id ≠ Py.null →
        2 ≤ ((responses.filter (fun r => r.id = id)).map responseValue).length →
        dget (collectResponses responses).2 id
          = some (.dup ((responses.filter (fun r => r.id = id)).map responseValue))) := by
  constructor
  · intro responses
    simpa using collect_unlinked_spec responses ([], [])
  · intro responses id hid hlen
    rw [collectResponses, collect_map_lookup responses ([], []) id hid]
    have hbase : dget (([], []) : List AtomValue × List (Py × MapValue)).2 id
        = Option.none := rfl
    rw [hbase, insertAtoms_none_eq_mapValueFor]
    match hvs : (responses.filter (fun r => r.id = id)).map responseValue with
    | [] => rw [hvs] at hlen; simp at hlen
    | [v] => rw [hvs] at hlen; simp at hlen
    | v :: w :: rest => rw [hvs]; rfl

/-- Witness for C2 (amended): with responses carrying an empty id, the
value [1] lands in the unlinked bucket, and two responses sharing the id
"x" produce a DuplicatedResults collector holding both values in order
(mirroring tests/test_batch.py test_duplicated_results). -/
theorem C2_unlinked_duplicated_amended_witness :
    (collectResponses
        [{ id := Py.null, result := Py.list [Py.int 1] },
         { id := Py.str "x", result := Py.int 1 },
         { id := Py.str "x", result := Py.int 2 }]).1
      = [AtomValue.res (Py.list [Py.int 1])]
    ∧ dget (collectResponses
        [{ id := Py.null, result := Py.list [Py.int 1] },
         { id := Py.str "x", result := Py.int 1 },
         { id := Py.str "x", result := Py.int 2 }]).2 (Py.str "x")
      = some (.dup [AtomValue.res (Py.int 1), AtomValue.res (Py.int 2)]) := by
  constructor
  · rw [C2_unlinked_duplicated_amended.1
      [{ id := Py.null, result := Py.list [Py.int 1] },
       { id := Py.str "x", result := Py.int 1 },
       { id := Py.str "x", result := Py.int 2 }]]
    rfl
  · rw [C2_unlinked_duplicated_amended.2
      [{ id := Py.null, result := Py.list [Py.int 1] },
       { id := Py.str "x", result := Py.int 1 },
       { id := Py.str "x", result := Py.int 2 }]
      (Py.str "x") (by decide) (by decide)]
    rfl

theorem runSched_apply {β : Type} (g : Nat → β) (sched : List Nat)
    (s : Nat → Option β) (i : Nat) :
    sched.foldl (scatterStep g) s i = if i ∈ sched then some (g i) else s i := by
  induction sched generalizing s with
  | nil => simp
  | cons x xs ih =>
    rw [List.foldl_cons, ih]
    by_cases hxs : i ∈ xs
    · simp [hxs]
    · by_cases hx : i = x
      · subst hx
        simp [hxs, scatterStep]
      · simp [hxs, hx, scatterStep]

theorem gather_model_eq {β : Type} (g : Nat → β) (n : Nat) (sched : List Nat)
    (hcov : ∀ i, i < n → i ∈ sched) :
    gather_model g n sched = (List.range n).map (fun i => some (g i)) := by
  unfold gather_model runSched
  apply List.map_congr_left
  intro i hi
  rw [runSched_apply]
  simp [hcov i (List.mem_range.mp hi)]

theorem map_getD_range {α β : Type} (items : List α) (d : α) (f : α → β) :
    (List.range items.length).map (fun i => f (items.getD i d)) = items.map f := by
  induction items with
  | nil => simp
  | cons a as ih =>
    rw [List.length_cons, List.range_succ_eq_map, List.map_cons, List.map_map]
    simp only [Function.comp_def, List.getD_cons_zero, List.getD_cons_succ]
    rw [ih]
    rfl

theorem raise_exception_if_have_map_ok (xs : List (Option Py)) :
    raise_exception_if_have (xs.map Except.ok) = .ok xs := by
  induction xs with
  | nil => rfl
  | cons x xs ih => simp [raise_exception_if_have, ih, Except.map]

theorem filter_eq_singleton_of_nodup {α β : Type} [DecidableEq β]
    (f : α → β) (l : List α) (a : α)
    (hnd : (l.map f).Nodup) (ha : a ∈ l) :
    l.filter (fun x => f x = f a) = [a] := by
  induction l with
  | nil => cases ha
  | cons b bs ih =>
    rw [List.map_cons, List.nodup_cons] at hnd
    rcases List.mem_cons.mp ha with hab | hmem
    · subst hab
      have hnil : bs.filter (fun x => f x = f a) = [] := by
        rw [List.filter_eq_nil_iff]
        intro x hx
        simp only [decide_eq_true_eq]
        intro hfx
        exact hnd.1 (List.mem_map.mpr ⟨x, hx, hfx⟩)
      simp [List.filter_cons, hnil]
    · have hfb : ¬(f b = f a) := by
        intro hfb
        exact hnd.1 (hfb ▸ List.mem_map.mpr ⟨a, hmem, rfl⟩)
      simp [List.filter_cons, hfb, ih hnd.2 hmem]

/-- Claim C1: batch order preservation.  Server side: for any completion
schedule covering all batch elements, the gathered per-element outputs
read out in input-index order coincide with the in-order outputs, and the
dispatcher emits exactly the non-notification outputs in input order.
Client side: with save_order=true, the i-th entry of the collected batch
result is the value of the response bearing the i-th request id, whatever
the arrival order of the responses. -/
theorem C1_batch_order_preservation :
    (∀ (chain : JsonRpcRequest → Except PyExc JsonRpcResponse) (items : List Py)
       (sched : List Nat),
      (∀ i, i < items.length → i ∈ sched) →
      gather_model (proc_at chain items) items.length sched
        = (batch_outputs chain items).map some)
    ∧ (∀ (chain : JsonRpcRequest → Except PyExc JsonRpcResponse) (items : List Py),
      items ≠ [] →
      (∀ it ∈ items, ∃ o, process_single_json_request chain it = .ok o) →
      process_input_data chain (.list items)
        = .ok (if ((batch_outputs chain items).filterMap id).isEmpty then Option.none
               else some (.batch ((batch_outputs chain items).filterMap id))))
    ∧ (∀ (requests : List JsonRpcRequest) (responses : List JsonRpcResponse)
       (i : Nat) (req : JsonRpcRequest) (r : JsonRpcResponse),
      requests.get? i = some req →
      r ∈ responses → r.id = req.id → req.id ≠ Py.null →
      (responses.map (fun x => x.id)).Nodup →
      (collect_batch_result requests responses).get? i
        = some (BatchValue.atom (responseValue r))) := by
  refine ⟨?_, ?_, ?_⟩
  · intro chain items sched hcov
    rw [gather_model_eq _ _ _ hcov]
    have hlen : items.length = (batch_outputs chain items).length := by
      simp [batch_outputs]
    calc (List.range items.length).map (fun i => some (proc_at chain items i))
        = (List.range (batch_outputs chain items).length).map
            (fun i => some ((batch_outputs chain items).getD i Option.none)) := by
          rw [← hlen]; rfl
      _ = (batch_outputs chain items).map some := map_getD_range _ _ _
  · intro chain items hne hok
    have hmap : items.map (process_single_json_request chain)
        = (batch_outputs chain items).map Except.ok := by
      unfold batch_outputs
      rw [List.map_map]
      apply List.map_congr_left
      intro it hit
      obtain ⟨o, ho⟩ := hok it hit
      simp [ho]
    have hempty : items.isEmpty = false := by
      cases items with
      | nil => exact absurd rfl hne
      | cons a as => rfl
    simp only [process_input_data, hempty, Bool.false_eq_true, if_false, hmap,
      raise_exception_if_have_map_ok]
  · intro requests responses i req r hgi hr hid hreqid hnd
    have hfil : responses.filter (fun x => x.id = req.id) = [r] := by
      have hsing := filter_eq_singleton_of_nodup
        (fun x : JsonRpcResponse => x.id) responses r hnd hr
      simpa [hid] using hsing
    have hdget : dget (collectResponses responses).2 req.id
        = some (.atom (responseValue r)) := by
      rw [collectResponses, collect_map_lookup responses ([], []) req.id hreqid, hfil]
      rfl
    have hnotif : req.is_notification = false := by
      simp [JsonRpcRequest.is_notification, hreqid]
    have hgi2 : requests[i]? = some req := by simpa using hgi
    simp [collect_batch_result, hgi2, hnotif, hdget, MapValue.toBatchValue]

/-- Witness for C1 at concrete inputs: a one-element batch processed under
the schedule [0] gathers to the in-order output; the dispatcher emits its
single response; and on the client side the slot of the request with id
"a" receives the value 7 of the response with id "a". -/
theorem C1_batch_order_preservation_witness :
    gather_model
      (proc_at (default_chain (fun _ _ _ => .ok (Py.int 7)))
        [Py.dict [("method", Py.str "m"), ("jsonrpc", Py.str "2.0"), ("id", Py.int 1)]])
      1 [0]
      = (batch_outputs (default_chain (fun _ _ _ => .ok (Py.int 7)))
          [Py.dict [("method", Py.str "m"), ("jsonrpc", Py.str "2.0"), ("id", Py.int 1)]]).map
          some
    ∧ process_input_data (default_chain (fun _ _ _ => .ok (Py.int 7)))
        (.list [Py.dict [("method", Py.str "m"), ("jsonrpc", Py.str "2.0"), ("id", Py.int 1)]])
        = .ok (if ((batch_outputs (default_chain (fun _ _ _ => .ok (Py.int 7)))
                 [Py.dict [("method", Py.str "m"), ("jsonrpc", Py.str "2.0"),
                   ("id", Py.int 1)]]).filterMap id).isEmpty
               then Option.none
               else some (.batch ((batch_outputs (default_chain (fun _ _ _ => .ok (Py.int 7)))
                 [Py.dict [("method", Py.str "m"), ("jsonrpc", Py.str "2.0"),
                   ("id", Py.int 1)]]).filterMap id)))
    ∧ (collect_batch_result
        [{ method_name := Py.str "m", id := Py.str "a" }]
        [{ id := Py.str "a", result := Py.int 7 }]).get? 0
        = some (BatchValue.atom (responseValue { id := Py.str "a", result := Py.int 7 })) := by
  refine ⟨?_, ?_, ?_⟩
  · exact C1_batch_order_preservation.1 _ _ [0]
      (by intro i hi; simp [Nat.lt_one_iff.mp hi])
  · exact C1_batch_order_preservation.2.1 _ _
      (by simp)
      (by
        intro it hit
        rw [List.mem_singleton] at hit
        subst hit
        exact ⟨_, rfl⟩)
  · exact C1_batch_order_preservation.2.2
      [{ method_name := Py.str "m", id := Py.str "a" }]
      [{ id := Py.str "a", result := Py.int 7 }]
      0
      { method_name := Py.str "m", id := Py.str "a" }
      { id := Py.str "a", result := Py.int 7 }
      rfl (by simp) rfl (by decide) (by decide)

theorem single_notification_suppressed
    (callFn : Py → List Py → List (String × Py) → Except PyExc Py)
    (data : Py) (req : JsonRpcRequest) (v : Py)
    (hload : JsonRpcRequest.load data = .ok req)
    (hid : req.id = Py.null)
    (hcall : callFn req.method_name req.args req.kwargs = .ok v) :
    process_single_json_request (default_chain callFn) data = .ok Option.none := by
  cases data with
  | dict kvs =>
    have hresp : default_chain callFn req
        = .ok { id := req.id, jsonrpc := req.jsonrpc, result := v } := by
      simp [default_chain, exception_middleware, process_single_request, hcall]
    simp [process_single_json_request, hload, hresp,
      JsonRpcResponse.is_notification, hid]
  | scalar s => simp [JsonRpcRequest.load, validate_json_request] at hload
  | list xs => simp [JsonRpcRequest.load, validate_json_request] at hload
  | other => simp [JsonRpcRequest.load, validate_json_request] at hload

/-- Claim C5: a request with no id that dispatches successfully yields no
response in the output (the dispatcher returns None for it), and a batch
all of whose members are notifications that dispatch successfully yields
no output at all (no body). -/
theorem C5_notification_suppression :
    (∀ (callFn : Py → List Py → List (String × Py) → Except PyExc Py)
       (data : Py) (req : JsonRpcRequest) (v : Py),
      JsonRpcRequest.load data = .ok req →
      req.id = Py.null →
      callFn req.method_name req.args req.kwargs = .ok v →
      process_single_json_request (default_chain callFn) data = .ok Option.none)
    ∧ (∀ (callFn : Py → List Py → List (String × Py) → Except PyExc Py)
       (items : List Py),
      items ≠ [] →
      (∀ it ∈ items, ∃ req v,
        JsonRpcRequest.load it = .ok req ∧ req.id = Py.null
        ∧ callFn req.method_name req.args req.kwargs = .ok v) →
      process_input_data (default_chain callFn) (.list items) = .ok Option.none) := by
  constructor
  · intro callFn data req v hload hid hcall
    exact single_notification_suppressed callFn data req v hload hid hcall
  · intro callFn items hne hok
    have hmap : items.map (process_single_json_request (default_chain callFn))
        = (items.map (fun _ => (Option.none : Option Py))).map Except.ok := by
      rw [List.map_map]
      apply List.map_congr_left
      intro it hit
      obtain ⟨req, v, h1, h2, h3⟩ := hok it hit
      exact single_notification_suppressed callFn it req v h1 h2 h3
    have hempty : items.isEmpty = false := by
      cases items with
      | nil => exact absurd rfl hne
      | cons a as => rfl
    simp only [process_input_data, hempty, Bool.false_eq_true, if_false, hmap,
      raise_exception_if_have_map_ok]
    simp

/-- Witness for C5: a single notification request calling method m is
suppressed, and a batch of two such notifications yields no output. -/
theorem C5_notification_suppression_witness :
    process_single_json_request (default_chain (fun _ _ _ => .ok (Py.int 3)))
      (Py.dict [("method", Py.str "m"), ("jsonrpc", Py.str "2.0")])
      = .ok Option.none
    ∧ process_input_data (default_chain (fun _ _ _ => .ok (Py.int 3)))
        (.list [Py.dict [("method", Py.str "m"), ("jsonrpc", Py.str "2.0")],
                Py.dict [("method", Py.str "n"), ("jsonrpc", Py.str "2.0")]])
        = .ok Option.none := by
  constructor
  · exact C5_notification_suppression.1 (fun _ _ _ => .ok (Py.int 3))
      (Py.dict [("method", Py.str "m"), ("jsonrpc", Py.str "2.0")])
      { method_name := Py.str "m" } (Py.int 3) rfl rfl rfl
  · refine C5_notification_suppression.2 (fun _ _ _ => .ok (Py.int 3))
      [Py.dict [("method", Py.str "m"), ("jsonrpc", Py.str "2.0")],
       Py.dict [("method", Py.str "n"), ("jsonrpc", Py.str "2.0")]]
      (by simp) ?_
    intro it hit
    rcases List.mem_cons.mp hit with h1 | h2
    · subst h1
      exact ⟨{ method_name := Py.str "m" }, Py.int 3, rfl, rfl, rfl⟩
    · rw [List.mem_singleton] at h2
      subst h2
      exact ⟨{ method_name := Py.str "n" }, Py.int 3, rfl, rfl, rfl⟩

theorem parse_args_post (args : Option (List Py)) (kwargs : Option (List (String × Py)))
    (p : Params) (a : List Py) (k : List (String × Py))
    (h : parse_args_and_kwargs args kwargs = .ok (p, a, k)) :
    (p = .nothing ∧ a = [] ∧ k = [])
    ∨ (∃ v, p = .val v ∧ convert_params_to_args_and_kwargs (.val v) = .ok (a, k)) := by
  by_cases ha : truthy_args args = true
  · by_cases hk : truthy_kwargs kwargs = true
    · simp [parse_args_and_kwargs, ha, hk] at h
    · rcases args with _ | as
      · simp [truthy_args] at ha
      · rcases as with _ | ⟨x, xs⟩
        · simp [truthy_args] at ha
        · rcases xs with _ | ⟨y, ys⟩
          · by_cases hx : isJsonPrimitive x = true
            · simp [parse_args_and_kwargs, truthy_args,
                Bool.not_eq_true _ ▸ hk, hx] at h
              obtain ⟨hv, ha2, hk2⟩ := h
              subst hv
              subst ha2
              subst hk2
              exact Or.inr ⟨x, rfl, by simp [convert_params_to_args_and_kwargs, hx]⟩
            · simp [parse_args_and_kwargs, truthy_args,
                Bool.not_eq_true _ ▸ hk, hx] at h
              obtain ⟨hv, ha2, hk2⟩ := h
              subst hv
              subst ha2
              subst hk2
              exact Or.inr ⟨.list [x], rfl,
                by simp [convert_params_to_args_and_kwargs, isJsonPrimitive]⟩
          · simp [parse_args_and_kwargs, truthy_args,
              Bool.not_eq_true _ ▸ hk] at h
            obtain ⟨hv, ha2, hk2⟩ := h
            subst hv
            subst ha2
            subst hk2
            exact Or.inr ⟨.list (x :: y :: ys), rfl,
              by simp [convert_params_to_args_and_kwargs, isJsonPrimitive]⟩
  · by_cases hk : truthy_kwargs kwargs = true
    · rcases kwargs with _ | ks
      · simp [truthy_kwargs] at hk
      · rcases ks with _ | ⟨kv, ks⟩
        · simp [truthy_kwargs] at hk
        · simp [parse_args_and_kwargs, Bool.not_eq_true _ ▸ ha, truthy_kwargs] at h
          obtain ⟨hv, ha2, hk2⟩ := h
          subst hv
          subst ha2
          subst hk2
          exact Or.inr ⟨.dict (kv :: ks), rfl,
            by simp [convert_params_to_args_and_kwargs, isJsonPrimitive]⟩
    · simp [parse_args_and_kwargs, Bool.not_eq_true _ ▸ ha,
        Bool.not_eq_true _ ▸ hk] at h
      obtain ⟨hv, ha2, hk2⟩ := h
      subst hv
      subst ha2
      subst hk2
      exact Or.inl ⟨rfl, rfl, rfl⟩

theorem load_dump_of_consistent (r : JsonRpcRequest)
    (hj : r.jsonrpc = VERSION_2_0)
    (hc : (r.params = .nothing ∧ r.args = [] ∧ r.kwargs = [])
      ∨ (∃ v, r.params = .val v
          ∧ convert_params_to_args_and_kwargs (.val v) = .ok (r.args, r.kwargs))) :
    JsonRpcRequest.load r.dump = .ok r := by
  obtain ⟨mn, idv, jv, p, a, k⟩ := r
  simp only at hj hc
  subst hj
  rcases hc with ⟨hp, ha, hk⟩ | ⟨v, hp, hcv⟩
  · subst hp
    subst ha
    subst hk
    by_cases hid : idv = Py.null
    · subst hid
      rfl
    · simp [JsonRpcRequest.dump, hid, JsonRpcRequest.load, validate_json_request,
        pyGet, validate_jsonrpc, VERSION_2_0, JsonRpcRequest.make,
        parse_args_and_kwargs, truthy_args, truthy_kwargs]
  · subst hp
    by_cases hid : idv = Py.null
    · subst hid
      simp [JsonRpcRequest.dump, JsonRpcRequest.load, validate_json_request,
        pyGet, validate_jsonrpc, VERSION_2_0, JsonRpcRequest.make, hcv]
    · simp [JsonRpcRequest.dump, hid, JsonRpcRequest.load, validate_json_request,
        pyGet, validate_jsonrpc, VERSION_2_0, JsonRpcRequest.make, hcv]

/-- Claim C4: request wire round-trip.  Every request r produced by the
JsonRpcRequest constructor (whatever mix of params or args/kwargs it was
given) satisfies load(dump(r)) = r field-for-field: same id, method name,
jsonrpc version, params, args, and kwargs. -/
theorem C4_request_round_trip :
    ∀ (mn idv jv : Py) (p : Params) (args : Option (List Py))
      (kwargs : Option (List (String × Py))) (r : JsonRpcRequest),
    JsonRpcRequest.make mn idv jv p args kwargs = .ok r →
    JsonRpcRequest.load r.dump = .ok r := by
  intro mn idv jv p args kwargs r hmk
  unfold JsonRpcRequest.make at hmk
  cases hval : validate_jsonrpc jv with
  | error e => rw [hval] at hmk; cases hmk
  | ok u =>
    rw [hval] at hmk
    have hjv : jv = VERSION_2_0 := by
      by_contra hne
      simp [validate_jsonrpc, hne] at hval
    cases p with
    | nothing =>
      cases hparse : parse_args_and_kwargs args kwargs with
      | error e => rw [hparse] at hmk; cases hmk
      | ok triple =>
        obtain ⟨p2, a2, k2⟩ := triple
        rw [hparse] at hmk
        cases hmk
        exact load_dump_of_consistent _ hjv (parse_args_post args kwargs p2 a2 k2 hparse)
    | val v =>
      cases args with
      | some as => cases kwargs <;> cases hmk
      | none =>
        cases kwargs with
        | some ks => cases hmk
        | none =>
          have hmk2 : (match convert_params_to_args_and_kwargs (Params.val v) with
            | Except.error e => (Except.error e : Except JsonRpcError JsonRpcRequest)
            | Except.ok (a, k) =>
              Except.ok { method_name := mn, id := idv, jsonrpc := jv,
                          params := Params.val v, args := a, kwargs := k })
              = Except.ok r := hmk
          cases hconv : convert_params_to_args_and_kwargs (.val v) with
          | error e => rw [hconv] at hmk2; cases hmk2
          | ok ak =>
            obtain ⟨a2, k2⟩ := ak
            rw [hconv] at hmk2
            cases hmk2
            exact load_dump_of_consistent _ hjv (Or.inr ⟨v, rfl, hconv⟩)

/-- Witness for C4: a request built from params 5 with id 1 and one built
from kwargs round-trip through dump and load unchanged. -/
theorem C4_request_round_trip_witness :
    JsonRpcRequest.load
      (JsonRpcRequest.dump
        { method_name := Py.str "m", id := Py.int 1, params := .val (Py.int 5),
          args := [Py.int 5] })
      = .ok { method_name := Py.str "m", id := Py.int 1, params := .val (Py.int 5),
              args := [Py.int 5] }
    ∧ JsonRpcRequest.load
        (JsonRpcRequest.dump
          { method_name := Py.str "m", id := Py.str "a",
            params := .val (Py.dict [("x", Py.int 2)]),
            kwargs := [("x", Py.int 2)] })
        = .ok { method_name := Py.str "m", id := Py.str "a",
                params := .val (Py.dict [("x", Py.int 2)]),
                kwargs := [("x", Py.int 2)] } :=
  ⟨C4_request_round_trip (Py.str "m") (Py.int 1) VERSION_2_0
      (.val (Py.int 5)) Option.none Option.none _ rfl,
   C4_request_round_trip (Py.str "m") (Py.str "a") VERSION_2_0
      (.val (Py.dict [("x", Py.int 2)])) Option.none Option.none _ rfl⟩

theorem dpop_fst {κ α : Type} [DecidableEq κ] (m : List (κ × α)) (k : κ) :
    (dpop m k).1 = dget m k := by
  induction m with
  | nil => rfl
  | cons hd tl ih =>
    obtain ⟨k2, v⟩ := hd
    by_cases h : k2 = k <;> simp [dpop, dget, h, ih]

theorem dget_foldl_dset_not_mem {κ α : Type} [DecidableEq κ]
    (ids : List κ) (p : List (κ × α)) (v : α) (k : κ) (hk : k ∉ ids) :
    dget (ids.foldl (fun p i => dset p i v) p) k = dget p k := by
  induction ids generalizing p with
  | nil => rfl
  | cons i is ih =>
    rw [List.foldl_cons, ih _ (fun hm => hk (List.mem_cons_of_mem i hm))]
    exact dget_dset_other p i k v (fun hh => hk (hh ▸ List.mem_cons_self i is))

theorem dget_foldl_dset_mem {κ α : Type} [DecidableEq κ]
    (ids : List κ) (p : List (κ × α)) (v : α) (k : κ) (hk : k ∈ ids) :
    dget (ids.foldl (fun p i => dset p i v) p) k = some v := by
  induction ids generalizing p with
  | nil => cases hk
  | cons i is ih =>
    rw [List.foldl_cons]
    by_cases hmem : k ∈ is
    · exact ih _ hmem
    · have hki : k = i := by
        rcases List.mem_cons.mp hk with h | h
        · exact h
        · exact absurd h hmem
      subst hki
      rw [dget_foldl_dset_not_mem is _ v k hmem]
      exact dget_dset_self p k v

theorem notify_go_processed (rest : List Py) (st : WsState) (json : Py) :
    (notify_about_results_go st true rest json).2 = false
    ∧ (notify_about_results_go st true rest json).1.futures = st.futures := by
  induction rest generalizing st with
  | nil => exact ⟨rfl, rfl⟩
  | cons rid rest ih =>
    simp only [notify_about_results_go]
    cases hpop : dpop st.pending rid with
    | mk found pending =>
      cases found with
      | none => exact ih st
      | some fidx =>
        simp only [if_pos rfl]
        exact ih { st with pending := pending }

/-- Claim C9 as amended: (i) for every websocket batch send, all ids of
the payload are registered in the pending table under one shared fresh
waiter, and the registration events all precede the frame-sent event in
the trace; (ii) within one incoming frame bearing several sibling ids, the
waiter is resolved exactly once with no error — the first id resolves it
and the later sibling ids are skipped; (iii) but when a sibling id of an
already-resolved waiter arrives in a later separate frame, set_result is
called on a done future, which raises InvalidStateError (it is not a
silent no-op), while the stored result of the waiter stays untouched. -/
theorem C9_waiter_resolution_amended :
    (∀ (st : WsState) (data : Py),
      (∀ id ∈ get_ids_from_json data,
        dget (ws_send_json st data).1.pending id = some st.futures.length)
      ∧ (ws_send_json st data).1.trace
          = st.trace
            ++ (get_ids_from_json data).map
                (fun i => WsEvent.registered i st.futures.length)
            ++ [WsEvent.sentFrame data])
    ∧ (∀ (st : WsState) (json : Py) (fidx : Nat) (i0 : Py) (rest : List Py),
      dget st.pending i0 = some fidx →
      st.futures.get? fidx = some Option.none →
      (notify_about_results st (i0 :: rest) json).2 = false
      ∧ (notify_about_results st (i0 :: rest) json).1.futures
          = st.futures.set fidx (some json))
    ∧ (∀ (st : WsState) (rid : Py) (fidx : Nat) (v json : Py),
      dget st.pending rid = some fidx →
      st.futures.get? fidx = some (some v) →
      (notify_about_result st rid json).2 = true
      ∧ (notify_about_result st rid json).1.futures = st.futures) := by
  refine ⟨?_, ?_, ?_⟩
  · intro st data
    constructor
    · intro id hid
      simp only [ws_send_json]
      exact dget_foldl_dset_mem (get_ids_from_json data) st.pending
        st.futures.length id hid
    · rfl
  · intro st json fidx i0 rest h0 hf
    have hf2 : st.futures[fidx]? = some Option.none := by simpa using hf
    have hset : future_set_result st.futures fidx json
        = (st.futures.set fidx (some json), false) := by
      simp [future_set_result, hf2]
    cases hd : dpop st.pending i0 with
    | mk found pending1 =>
      have hfound : found = some fidx := by
        have hfst := dpop_fst st.pending i0
        rw [hd, h0] at hfst
        exact hfst
      subst hfound
      have hstep : notify_about_results st (i0 :: rest) json
          = notify_about_results_go
              (WsState.mk pending1 (st.futures.set fidx (some json)) st.trace)
              true rest json := by
        rw [notify_about_results, notify_about_results_go, hd]
        simp [hset]
      rw [hstep]
      exact notify_go_processed rest _ json
  · intro st rid fidx v json hr hf
    have hf2 : st.futures[fidx]? = some (some v) := by simpa using hf
    have hset : future_set_result st.futures fidx json = (st.futures, true) := by
      simp [future_set_result, hf2]
    cases hd : dpop st.pending rid with
    | mk found pending1 =>
      have hfound : found = some fidx := by
        have hfst := dpop_fst st.pending rid
        rw [hd, hr] at hfst
        exact hfst
      subst hfound
      rw [notify_about_result, hd]
      simp [hset]

/-- Counterexample for C9: after a batch send registering the sibling ids
"a" and "b" under one shared waiter, a first frame resolves the waiter via
id "a"; a second frame carrying sibling id "b" is NOT a no-op — set_result
on the already-resolved future raises InvalidStateError (second component
true), although the stored result of the waiter stays the first value. -/
theorem C9_waiter_resolution_counterexample :
    (notify_about_result
      (notify_about_result
        (ws_send_json (WsState.mk [] [] [])
          (Py.list
            [Py.dict [("jsonrpc", Py.str "2.0"), ("method", Py.str "m"),
              ("id", Py.str "a")],
             Py.dict [("jsonrpc", Py.str "2.0"), ("method", Py.str "m"),
              ("id", Py.str "b")]])).1
        (Py.str "a") (Py.int 1)).1
      (Py.str "b") (Py.int 2)).2 = true
    ∧ (notify_about_result
        (notify_about_result
          (ws_send_json (WsState.mk [] [] [])
            (Py.list
              [Py.dict [("jsonrpc", Py.str "2.0"), ("method", Py.str "m"),
                ("id", Py.str "a")],
               Py.dict [("jsonrpc", Py.str "2.0"), ("method", Py.str "m"),
                ("id", Py.str "b")]])).1
          (Py.str "a") (Py.int 1)).1
        (Py.str "b") (Py.int 2)).1.futures = [some (Py.int 1)] := by
  exact ⟨rfl, rfl⟩

/-- Witness for C9 (amended) at a concrete batch send of ids "a" and "b":
both ids share the fresh waiter 0 registered before the frame event; one
incoming batch frame bearing both sibling ids resolves the waiter once
without error; and a later single frame for the sibling id of the resolved
waiter raises while leaving the stored value untouched. -/
theorem C9_waiter_resolution_amended_witness :
    dget (ws_send_json (WsState.mk [] [] [])
        (Py.list
          [Py.dict [("jsonrpc", Py.str "2.0"), ("method", Py.str "m"),
            ("id", Py.str "a")],
           Py.dict [("jsonrpc", Py.str "2.0"), ("method", Py.str "m"),
            ("id", Py.str "b")]])).1.pending (Py.str "a") = some 0
    ∧ ((notify_about_results
        (WsState.mk [(Py.str "a", 0), (Py.str "b", 0)] [Option.none] [])
        [Py.str "a", Py.str "b"] (Py.int 1)).2 = false
      ∧ (notify_about_results
          (WsState.mk [(Py.str "a", 0), (Py.str "b", 0)] [Option.none] [])
          [Py.str "a", Py.str "b"] (Py.int 1)).1.futures
          = [Option.none].set 0 (some (Py.int 1)))
    ∧ ((notify_about_result
        (WsState.mk [(Py.str "b", 0)] [some (Py.int 1)] [])
        (Py.str "b") (Py.int 2)).2 = true
      ∧ (notify_about_result
          (WsState.mk [(Py.str "b", 0)] [some (Py.int 1)] [])
          (Py.str "b") (Py.int 2)).1.futures = [some (Py.int 1)]) :=
  ⟨(C9_waiter_resolution_amended.1
      (WsState.mk [] [] [])
      (Py.list
        [Py.dict [("jsonrpc", Py.str "2.0"), ("method", Py.str "m"),
          ("id", Py.str "a")],
         Py.dict [("jsonrpc", Py.str "2.0"), ("method", Py.str "m"),
          ("id", Py.str "b")]])).1 (Py.str "a") (by decide),
   C9_waiter_resolution_amended.2.1
     (WsState.mk [(Py.str "a", 0), (Py.str "b", 0)] [Option.none] [])
     (Py.int 1) 0 (Py.str "a") [Py.str "b"] (by decide) rfl,
   C9_waiter_resolution_amended.2.2
     (WsState.mk [(Py.str "b", 0)] [some (Py.int 1)] [])
     (Py.str "b") 0 (Py.int 1) (Py.int 2) (by decide) rfl⟩
